import Mathlib

/-!
Verification development for the hubspot-csv-integration synchronization engine.

The definitions below are a shallow embedding of the JavaScript source:

* `src/core/processor.js` (`HighPerformanceProcessor`): row validation,
  activity filtering, field mapping, deactivation-map construction,
  batch grouping and CREATE/UPDATE categorization;
* `src/core/oauth-client.js` (`HighPerformanceOAuthClient`): deactivation
  identification and the 401-refresh-retry pattern of the batch calls;
* `src/core/integration.js` (`HighPerformanceIntegration`): per-batch
  processing (`processSingleBatch`) and the batch loop
  (`processBatchesWithConcurrency`).

Rows are modelled as records of optional trimmed strings (a missing CSV
column is `none`).  Remote interaction is modelled by passing the remote
responses in explicitly (an oracle), and the set of remote requests a code
path submits is recorded in an explicit call log.
-/

namespace HubspotCsv

/-! ## JavaScript string primitives -/

/-- Whitespace characters recognised by the JavaScript `\s` class /
`String.prototype.trim` (ASCII part, which is all the integration's data
can contain after CSV parsing). -/
def isJsSpace (c : Char) : Bool :=
  c = ' ' || c = '\t' || c = '\n' || c = '\r' || c = '\x0b' || c = '\x0c'

/-- Model of `String.prototype.trim`: strip leading and trailing whitespace. -/
def jsTrim (s : String) : String :=
  ⟨((s.data.dropWhile isJsSpace).reverse.dropWhile isJsSpace).reverse⟩

/-- Model of JavaScript `parseInt` digit: decimal. -/
def decDigit (c : Char) : Option Nat :=
  if c.isDigit then some (c.toNat - 48) else none

/-- Model of JavaScript `parseInt` digit: hexadecimal (used after a `0x`/`0X`
prefix when `parseInt` is called without a radix, as the processor does). -/
def hexDigit (c : Char) : Option Nat :=
  if c.isDigit then some (c.toNat - 48)
  else if decide ('a' ≤ c) && decide (c ≤ 'f') then some (c.toNat - 87)
  else if decide ('A' ≤ c) && decide (c ≤ 'F') then some (c.toNat - 55)
  else none

/-- Longest prefix of digits of the given base; `none` when there is no
digit at all (`parseInt` yields `NaN` in that case). -/
def parseDigits (dv : Char → Option Nat) (base : Nat) (cs : List Char) : Option Nat :=
  let ds := cs.takeWhile (fun c => (dv c).isSome)
  if ds.isEmpty then none
  else some (ds.foldl (fun acc c => acc * base + (dv c).getD 0) 0)

/-- Model of JavaScript `parseInt(value)` with no radix argument, applied to
an optional string field: skip leading whitespace, read an optional sign,
then either a `0x`/`0X`-prefixed hexadecimal numeral or a run of decimal
digits; `none` models `NaN` (also the result on a missing field). -/
def jsParseInt (value : Option String) : Option Int :=
  match value with
  | none => none
  | some s =>
    let cs := s.data.dropWhile isJsSpace
    let signedBody : Int × List Char :=
      match cs with
      | '-' :: r => (-1, r)
      | '+' :: r => (1, r)
      | _ => (1, cs)
    let sign := signedBody.1
    let body := signedBody.2
    let mag : Option Nat :=
      match body with
      | '0' :: c :: r =>
        if c = 'x' || c = 'X' then parseDigits hexDigit 16 r
        else parseDigits decDigit 10 body
      | _ => parseDigits decDigit 10 body
    mag.map (fun n => sign * (n : Int))

/-- Model of the processor's `parseInt(x) || 0` idiom: `NaN` and `0` (and
`-0`) all collapse to `0`, any other parsed value passes through. -/
def jsParseIntOr0 (value : Option String) : Int :=
  (jsParseInt value).getD 0

/-! ## Rows and validation (`processor.js`) -/

/-- One parsed CSV row: the columns the synchronization engine reads, each
possibly absent.  Values are already trimmed by `parseCSV`. -/
structure Row where
  user_id : Option String
  email : Option String
  user_type : Option String
  active_sub : Option String
  weekly_sub_count : Option String
  monthly_sub_count : Option String
  daily_sub_count : Option String
deriving DecidableEq, Repr

/-- The `validateRow` missing-field test: `!row[field] || row[field].trim() === ''`
(absent, empty, or whitespace-only). -/
def blankField (v : Option String) : Bool :=
  match v with
  | none => true
  | some s => jsTrim s == ""

/-- Character class `[^\s@]` of the email regular expression. -/
def isEmailChar (c : Char) : Bool :=
  !isJsSpace c && c != '@'

/-- Model of `isValidEmail`, i.e. a full match of
`/^[^\s@]+@[^\s@]+\.[^\s@]+$/`: a nonempty `@`-free, space-free local part,
one `@`, and a domain part containing a `.` that has at least one character
on each side. -/
def isValidEmail (email : String) : Bool :=
  let cs := email.data
  let localPart := cs.takeWhile (fun c => c != '@')
  match cs.dropWhile (fun c => c != '@') with
  | [] => false
  | _ :: domainPart =>
    !localPart.isEmpty && localPart.all isEmailChar &&
    domainPart.all isEmailChar &&
    ((domainPart.drop 1).dropLast.contains '.')

/-- ASCII lower-casing of one character (what `String.prototype.toLowerCase`
does on the ASCII data these CSV fields hold). -/
def jsCharToLower (c : Char) : Char :=
  if decide ('A' ≤ c) && decide (c ≤ 'Z') then Char.ofNat (c.toNat + 32) else c

/-- Model of `String.prototype.toLowerCase` (ASCII range). -/
def jsToLowerCase (s : String) : String :=
  ⟨s.data.map jsCharToLower⟩

/-- Model of `convertToBoolean` on a row field: for a string,
`value.toLowerCase() === 'true' || value === '1'`; a missing field is falsy. -/
def convertToBoolean (value : Option String) : Bool :=
  match value with
  | some s => jsToLowerCase s == "true" || s == "1"
  | none => false

/-- Model of `validateRow`: `email` and `user_id` must be present and
non-blank, and the email must match the regular expression. -/
def validateRow (row : Row) : Bool :=
  if blankField row.email || blankField row.user_id then false
  else
    match row.email with
    | none => true
    | some e => if e != "" && !isValidEmail e then false else true

/-! ## Field mapping (`processor.js`) -/

/-- Model of `mapAccountType`: the explicit mapping table
`{ MP: 'MP', WIX: 'USAMPS' }` with pass-through fallback
(`accountTypeMapping[userType] || userType`); an absent input stays absent. -/
def mapAccountType (userType : Option String) : Option String :=
  match userType with
  | none => none
  | some t => if t = "MP" then some "MP" else if t = "WIX" then some "USAMPS" else some t

/-- The payload-cleaning step shared by `mapAccountFields` and
`mapContactFields`: a key is dropped when its value is `undefined`, `null`
or `''`, and kept values are trimmed. -/
def cleanStr (v : Option String) : Option String :=
  match v with
  | none => none
  | some s => if s = "" then none else some (jsTrim s)

/-- Contact payload produced by `mapContactFields` (names and all other
columns are ignored by the source).  The JavaScript value is a plain object
and is always truthy, even when both keys were cleaned away. -/
structure ContactPayload where
  email : Option String
  user_type : Option String
deriving DecidableEq, Repr

/-- Model of `mapContactFields`: `email` is copied, `user_type` goes through
the same `mapAccountType` table as accounts; both are then cleaned. -/
def mapContactFields (row : Row) : ContactPayload :=
  { email := cleanStr row.email
    user_type := cleanStr (mapAccountType row.user_type) }

/-- Account payload produced by `mapAccountFields`.  `active_subscription`
and `ever_had_subscription` are the strings `"true"`/`"false"` (never
cleaned away); the three counts are numbers (never cleaned away);
`account_type` may be cleaned away. -/
structure AccountPayload where
  id : String
  account_type : Option String
  active_subscription : String
  weekly_subscriptions : Int
  monthly_subscriptions : Int
  daily_subscriptions : Int
  ever_had_subscription : String
deriving DecidableEq, Repr

/-- Model of `mapAccountFields`: builds the account mapping, cleans it, and
returns `null` (here `none`) unless the cleaned `id` is truthy
(`return cleanedAccount.id ? cleanedAccount : null`). -/
def mapAccountFields (row : Row) : Option AccountPayload :=
  match cleanStr row.user_id with
  | none => none
  | some i =>
    if i = "" then none
    else some
      { id := i
        account_type := cleanStr (mapAccountType row.user_type)
        active_subscription := if convertToBoolean row.active_sub then "true" else "false"
        weekly_subscriptions := jsParseIntOr0 row.weekly_sub_count
        monthly_subscriptions := jsParseIntOr0 row.monthly_sub_count
        daily_subscriptions := jsParseIntOr0 row.daily_sub_count
        ever_had_subscription := if convertToBoolean row.active_sub then "true" else "false" }

/-! ## Activity filtering (`filterRecordsForProcessing`) -/

/-- Result of `filterRecordsForProcessing`: rows failing `validateRow` are
dropped from all three lists; valid rows are split by activity and all enter
`allRecordsForCreation`. -/
structure FilterResult where
  activeRecords : List Row
  inactiveRecords : List Row
  allRecordsForCreation : List Row
deriving DecidableEq, Repr

/-- Model of `filterRecordsForProcessing` (the `forEach` is rendered as
structural recursion preserving input order). -/
def filterRecordsForProcessing : List Row → FilterResult
  | [] => { activeRecords := [], inactiveRecords := [], allRecordsForCreation := [] }
  | row :: rest =>
    let r := filterRecordsForProcessing rest
    if validateRow row then
      if convertToBoolean row.active_sub then
        { activeRecords := row :: r.activeRecords
          inactiveRecords := r.inactiveRecords
          allRecordsForCreation := row :: r.allRecordsForCreation }
      else
        { activeRecords := r.activeRecords
          inactiveRecords := row :: r.inactiveRecords
          allRecordsForCreation := row :: r.allRecordsForCreation }
    else r

/-! ## Existence categorization (`categorizeRecordsByExistence`) -/

/-- Membership of an optional value in a string set (a JavaScript `Set` of
strings never contains `undefined`). -/
def setHasOpt (s : List String) (v : Option String) : Bool :=
  match v with
  | none => false
  | some x => s.contains x

/-- Result of `categorizeRecordsByExistence` (`recordsToSkip` is declared in
the source but never populated or returned, so it is omitted). -/
structure CategorizeResult where
  toCreate : List Row
  toUpdate : List Row
  totalOperations : Nat
deriving DecidableEq, Repr

/-- The row-by-row loop of `categorizeRecordsByExistence`: a row whose
`mapAccountFields` is `null` is skipped (`mapContactFields` always returns a
truthy object); otherwise CREATE when the account id or the contact email is
missing remotely, UPDATE in both remaining branches (the active and the
inactive one alike). -/
def categorizeGo (existingAccountIds existingContactEmails : List String) :
    List Row → List Row × List Row
  | [] => ([], [])
  | row :: rest =>
    let r := categorizeGo existingAccountIds existingContactEmails rest
    match mapAccountFields row with
    | none => r
    | some accountData =>
      let contactData := mapContactFields row
      let activeSub := convertToBoolean row.active_sub
      let accountExists := existingAccountIds.contains accountData.id
      let contactExists := setHasOpt existingContactEmails contactData.email
      if !accountExists || !contactExists then (row :: r.1, r.2)
      else if activeSub then (r.1, row :: r.2)
      else (r.1, row :: r.2)

/-- Model of `categorizeRecordsByExistence`. -/
def categorizeRecordsByExistence (allRecords : List Row)
    (existingAccountIds existingContactEmails : List String) : CategorizeResult :=
  let r := categorizeGo existingAccountIds existingContactEmails allRecords
  { toCreate := r.1, toUpdate := r.2, totalOperations := r.1.length + r.2.length }

/-! ## Deactivation map (`createDeactivationMap`, `identifyDeactivations`) -/

/-- The value stored in the deactivation map for one locally-inactive row. -/
structure DeactivationCandidate where
  user_id : String
  active_subscription : Bool
  weekly_subscriptions : Int
  monthly_subscriptions : Int
  daily_subscriptions : Int
deriving DecidableEq, Repr

/-- The deactivation candidate `createDeactivationMap` builds from one row:
active flag `false` and the parsed subscription counts. -/
def deactCandidate (row : Row) (uid : String) : DeactivationCandidate :=
  { user_id := uid
    active_subscription := false
    weekly_subscriptions := jsParseIntOr0 row.weekly_sub_count
    monthly_subscriptions := jsParseIntOr0 row.monthly_sub_count
    daily_subscriptions := jsParseIntOr0 row.daily_sub_count }

/-- Association-list model of the JavaScript `Map` used as deactivation map. -/
abbrev DeactMap := List (String × DeactivationCandidate)

/-- `Map.prototype.set`: replace the entry of an existing key in place,
append a fresh key at the end (keys are unique by construction). -/
def mapSet : DeactMap → String → DeactivationCandidate → DeactMap
  | [], k, v => [(k, v)]
  | (k', v') :: rest, k, v =>
    if k' == k then (k, v) :: rest else (k', v') :: mapSet rest k v

/-- `Map.prototype.get`. -/
def mapGet : DeactMap → String → Option DeactivationCandidate
  | [], _ => none
  | (k', v') :: rest, k => if k' == k then some v' else mapGet rest k

/-- `Map.prototype.has`. -/
def mapHas (m : DeactMap) (k : String) : Bool :=
  (mapGet m k).isSome

/-- The loop body of `createDeactivationMap`: a row with a truthy `user_id`
(`if (row.user_id)`: present and nonempty) is inserted under that key. -/
def deactStep (m : DeactMap) (row : Row) : DeactMap :=
  match row.user_id with
  | some uid => if uid == "" then m else mapSet m uid (deactCandidate row uid)
  | none => m

/-- Model of `createDeactivationMap`: rows with a truthy `user_id` are
inserted, later rows overwriting earlier entries with the same key. -/
def createDeactivationMap (inactiveRecords : List Row) : DeactMap :=
  inactiveRecords.foldl deactStep []

/-- The key under which a row enters the deactivation map, if any
(`if (row.user_id)`: present and nonempty). -/
def rowKeyOf (row : Row) : Option String :=
  match row.user_id with
  | some uid => if uid == "" then none else some uid
  | none => none

/-- One result of the remote active-accounts query (`searchActiveAccounts`):
the HubSpot-generated object id and the business id stored in the `id`
property. -/
structure RemoteAccount where
  id : String
  properties_id : Option String
deriving DecidableEq, Repr

/-- One deactivation write emitted by `identifyDeactivations`. -/
structure DeactivationWrite where
  hubspotId : String
  accountId : String
  updateData : DeactivationCandidate
deriving DecidableEq, Repr

/-- Model of `identifyDeactivations`, with the remote query result passed in
explicitly: every remotely-active account whose business id is a key of the
deactivation map becomes a write carrying that map entry. -/
def identifyDeactivations (activeAccounts : List RemoteAccount)
    (deactivationMap : DeactMap) : List DeactivationWrite :=
  activeAccounts.filterMap (fun account =>
    match account.properties_id with
    | none => none
    | some accountId =>
      match mapGet deactivationMap accountId with
      | some updateData =>
        some { hubspotId := account.id, accountId := accountId, updateData := updateData }
      | none => none)

/-! ## Batch planning (`groupForBatchProcessing`) -/

/-- One candidate contact-account link planned inside a batch. -/
structure AssociationPair where
  accountId : String
  contactEmail : Option String
deriving DecidableEq, Repr

/-- One planned batch: aligned account, contact and association sub-lists
plus progress metadata. -/
structure Batch where
  accounts : List AccountPayload
  contacts : List ContactPayload
  associations : List AssociationPair
  batchNumber : Nat
  totalBatches : Nat
deriving DecidableEq, Repr

/-- The slicing loop `for (let i = 0; i < n; i += 100) slice(i, i + 100)`,
rendered structurally with the list length as fuel (the drop of 100 elements
from a nonempty list strictly shrinks it, so length-many steps suffice). -/
def chunkGo : Nat → List Row → List (List Row)
  | _, [] => []
  | 0, _ :: _ => []
  | fuel + 1, row :: rest =>
    (row :: rest).take 100 :: chunkGo fuel ((row :: rest).drop 100)

/-- Split a record list into consecutive slices of at most 100 rows
(`batchSize = 100`, the HubSpot batch API limit). -/
def chunkBy100 (l : List Row) : List (List Row) :=
  chunkGo l.length l

/-- The per-slice body of `groupForBatchProcessing`: project every row into
its payloads (`mapContactFields` always yields a truthy object, so every row
contributes a contact; a row contributes an account, and an association
pair, exactly when `mapAccountFields` is non-null). -/
def buildBatch (rows : List Row) (batchNumber totalBatches : Nat) : Batch :=
  { accounts := rows.filterMap mapAccountFields
    contacts := rows.map mapContactFields
    associations := rows.filterMap (fun row =>
      match mapAccountFields row with
      | some accountData =>
        some { accountId := accountData.id, contactEmail := (mapContactFields row).email }
      | none => none)
    batchNumber := batchNumber
    totalBatches := totalBatches }

/-- Model of `groupForBatchProcessing`: slice into chunks of 100 and build a
batch per chunk, numbering from 1 with `Math.ceil(length / 100)` as total. -/
def groupForBatchProcessing (records : List Row) : List Batch :=
  let totalBatches := (records.length + 99) / 100
  (chunkBy100 records).enum.map (fun p => buildBatch p.2 (p.1 + 1) totalBatches)

/-! ## Batch execution (`integration.js`) -/

/-- The mutable run counters of `HighPerformanceIntegration.stats`
(`totalProcessingTime`, a wall-clock float, is not modelled). -/
structure SyncStats where
  accountsCreated : Nat
  accountsUpdated : Nat
  contactsCreated : Nat
  contactsUpdated : Nat
  associationsCreated : Nat
  errors : Nat
  batchesProcessed : Nat
deriving DecidableEq, Repr

/-- One element of a bulk account create/update response. -/
structure AccountResult where
  id : String
  properties : AccountPayload
deriving DecidableEq, Repr

/-- One element of a bulk contact create response. -/
structure ContactResult where
  id : String
  properties : ContactPayload
deriving DecidableEq, Repr

/-- One association-create response. -/
structure AssociationResult where
  fromId : String
  toId : String
deriving DecidableEq, Repr

/-- The remote requests a batch-processing code path can submit; each
records the number of payloads in the request. -/
inductive RemoteCall
  | createAccounts (n : Nat)
  | createContacts (n : Nat)
  | updateAccounts (n : Nat)
  | updateContacts (n : Nat)
  | createAssociations (n : Nat)
deriving DecidableEq, Repr

/-- Is the call a bulk account/contact update? -/
def isUpdateCall : RemoteCall → Bool
  | .updateAccounts _ => true
  | .updateContacts _ => true
  | _ => false

/-- The operation tag passed to `processSingleBatch` (`'create' | 'update'`). -/
inductive BatchOp
  | create
  | update
deriving DecidableEq, Repr

/-- Decidable equality for `Except`, used to derive it for the structures
holding modelled remote responses. -/
instance exceptDecEq {ε α : Type} [DecidableEq ε] [DecidableEq α] :
    DecidableEq (Except ε α) := fun x y =>
  match x, y with
  | .ok a, .ok b =>
    if h : a = b then isTrue (by rw [h]) else isFalse (by intro hh; cases hh; exact h rfl)
  | .error a, .error b =>
    if h : a = b then isTrue (by rw [h]) else isFalse (by intro hh; cases hh; exact h rfl)
  | .ok _, .error _ => isFalse (by intro hh; cases hh)
  | .error _, .ok _ => isFalse (by intro hh; cases hh)

/-- Behaviour of the remote store for the calls one batch may issue: each
call either returns results or throws (rejects) with a message. -/
structure BatchRemoteEnv where
  accountCreate : Except String (List AccountResult)
  contactCreate : Except String (List ContactResult)
  assocCreate : Except String (List AssociationResult)
deriving DecidableEq, Repr

/-- The value `processSingleBatch` resolves with (both on success and from
its `catch` handler). -/
structure BatchResult where
  operation : BatchOp
  batchNum : Nat
  success : Bool
  errorMsg : Option String
deriving DecidableEq, Repr

/-- Everything one `processSingleBatch` run produces: the updated stats, the
resolved value, and the log of remote requests it submitted. -/
structure SingleBatchOut where
  stats : SyncStats
  result : BatchResult
  calls : List RemoteCall
deriving DecidableEq, Repr

/-- The synthesized account results of the `operation === 'update'` branch:
`{ id: 'updated-account-<index>', properties: account }`, fabricated locally
without any remote request. -/
def simulatedAccountResults (accounts : List AccountPayload) : List AccountResult :=
  accounts.enum.map (fun p => { id := "updated-account-" ++ toString p.1, properties := p.2 })

/-- The synthesized contact results of the `operation === 'update'` branch. -/
def simulatedContactResults (contacts : List ContactPayload) : List ContactResult :=
  contacts.enum.map (fun p => { id := "updated-contact-" ++ toString p.1, properties := p.2 })

/-- The tail of `processSingleBatch` shared by both operations: when the
batch has association pairs and both sub-results are nonempty, submit the
association call (whose rejection lands in the batch's `catch` handler);
then count the batch as processed and resolve successfully. -/
def finishBatch (op : BatchOp) (batch : Batch) (env : BatchRemoteEnv) (batchNum : Nat)
    (stats : SyncStats) (calls : List RemoteCall)
    (accountResultsLen contactResultsLen : Nat) : SingleBatchOut :=
  if batch.associations.length > 0 && accountResultsLen > 0 && contactResultsLen > 0 then
    match env.assocCreate with
    | .error msg =>
      { stats := { stats with errors := stats.errors + 1 }
        result := { operation := op, batchNum := batchNum, success := false, errorMsg := some msg }
        calls := calls ++ [.createAssociations batch.associations.length] }
    | .ok assocResults =>
      { stats := { stats with
          associationsCreated := stats.associationsCreated + assocResults.length
          batchesProcessed := stats.batchesProcessed + 1 }
        result := { operation := op, batchNum := batchNum, success := true, errorMsg := none }
        calls := calls ++ [.createAssociations batch.associations.length] }
  else
    { stats := { stats with batchesProcessed := stats.batchesProcessed + 1 }
      result := { operation := op, batchNum := batchNum, success := true, errorMsg := none }
      calls := calls }

/-- Model of `processSingleBatch`.  The `create` branch submits the account
and contact bulk creates (each only when its payload list is nonempty —
`batch.accounts.length > 0 ? hubspot.batchCreateAccounts(...) : []`); a
rejection of either is caught at batch granularity, incrementing the error
counter and resolving with a failure value (the account rejection is taken
first when both reject, matching `Promise.all`'s first-rejection rule for
the listed order).  The `update` branch submits no remote request at all:
it fabricates success results and bumps the updated counters from the local
batch sizes. -/
def processSingleBatch (op : BatchOp) (batch : Batch) (env : BatchRemoteEnv)
    (batchNum : Nat) (stats : SyncStats) : SingleBatchOut :=
  match op with
  | .create =>
    let calls :=
      (if batch.accounts.length > 0 then [RemoteCall.createAccounts batch.accounts.length] else []) ++
      (if batch.contacts.length > 0 then [RemoteCall.createContacts batch.contacts.length] else [])
    let accountCall : Except String (List AccountResult) :=
      if batch.accounts.length > 0 then env.accountCreate else .ok []
    let contactCall : Except String (List ContactResult) :=
      if batch.contacts.length > 0 then env.contactCreate else .ok []
    match accountCall, contactCall with
    | .ok accountResults, .ok contactResults =>
      let stats := { stats with
        accountsCreated := stats.accountsCreated + accountResults.length
        contactsCreated := stats.contactsCreated + contactResults.length }
      finishBatch op batch env batchNum stats calls accountResults.length contactResults.length
    | .error msg, _ =>
      { stats := { stats with errors := stats.errors + 1 }
        result := { operation := op, batchNum := batchNum, success := false, errorMsg := some msg }
        calls := calls }
    | _, .error msg =>
      { stats := { stats with errors := stats.errors + 1 }
        result := { operation := op, batchNum := batchNum, success := false, errorMsg := some msg }
        calls := calls }
  | .update =>
    let accountResults := simulatedAccountResults batch.accounts
    let contactResults := simulatedContactResults batch.contacts
    let stats := { stats with
      accountsUpdated := stats.accountsUpdated + accountResults.length
      contactsUpdated := stats.contactsUpdated + contactResults.length }
    finishBatch op batch env batchNum stats [] accountResults.length contactResults.length

/-- One entry of the batch work list handed to the executor. -/
structure BatchTask where
  op : BatchOp
  batch : Batch
  env : BatchRemoteEnv
  batchNum : Nat
deriving DecidableEq, Repr

/-- Model of `processBatchesWithConcurrency`: every task is executed and its
resolved value collected (`Promise.allSettled`; the promises always fulfil
because `processSingleBatch` catches internally, so the `rejected` branch is
dead code).  The wave structure and the inter-wave delay only pace the
requests; the counter updates are single increments on the event loop, so
their accumulated value equals this sequential fold. -/
def processBatchesWithConcurrency (tasks : List BatchTask) (stats : SyncStats) :
    SyncStats × List BatchResult :=
  match tasks with
  | [] => (stats, [])
  | t :: rest =>
    let out := processSingleBatch t.op t.batch t.env t.batchNum stats
    let r := processBatchesWithConcurrency rest out.stats
    (r.1, out.result :: r.2)

/-- Does the modelled remote call reject? -/
def isErrResp {α : Type} : Except String (List α) → Bool
  | .error _ => true
  | .ok _ => false

/-- Number of results of a modelled remote call (0 on rejection). -/
def respLen {α : Type} : Except String (List α) → Nat
  | .error _ => 0
  | .ok l => l.length

/-- Does a batch's processing throw, i.e. reach a rejected remote call?
For `create`: either sub-create rejects, or the association stage is reached
(pairs planned and both sub-results nonempty) and rejects.  For `update`:
the sub-results are fabricated (never throw), so only a reached association
stage can reject. -/
def batchThrows (op : BatchOp) (batch : Batch) (env : BatchRemoteEnv) : Bool :=
  match op with
  | .create =>
    (batch.accounts.length > 0 && isErrResp env.accountCreate) ||
    (batch.contacts.length > 0 && isErrResp env.contactCreate) ||
    (batch.associations.length > 0 &&
      (if batch.accounts.length > 0 then respLen env.accountCreate else 0) > 0 &&
      (if batch.contacts.length > 0 then respLen env.contactCreate else 0) > 0 &&
      isErrResp env.assocCreate)
  | .update =>
    batch.associations.length > 0 && batch.accounts.length > 0 &&
    batch.contacts.length > 0 && isErrResp env.assocCreate

/-! ## The 401 refresh-retry pattern (`oauth-client.js`) -/

/-- Outcome of one attempt of a remote call: success with results, a 401
(expired/invalid credential), or any other error. -/
inductive RemoteAttemptResult (α : Type)
  | ok (results : α)
  | errAuth
  | errOther (msg : String)
deriving DecidableEq, Repr

/-- The `catch (error) { if (error.code === 401) { refresh; return retry } throw }`
pattern shared by the oauth client's batch methods, run against the list of
outcomes of successive attempts of the same call.  Returns the final
outcome together with the number of token refreshes performed, or `none`
when every listed attempt returned 401 — i.e. after that many refreshes the
call is still re-invoking itself. -/
def retryOn401 {α : Type} : List (RemoteAttemptResult α) → Option (Except String α × Nat)
  | [] => none
  | .ok rs :: _ => some (.ok rs, 0)
  | .errOther msg :: _ => some (.error msg, 0)
  | .errAuth :: rest => (retryOn401 rest).map (fun p => (p.1, p.2 + 1))

/-- Model of `batchCreateAccounts`: an empty payload list returns `[]`
without any remote attempt; otherwise the 401 refresh-retry recursion runs. -/
def batchCreateAccounts (accountsData : List AccountPayload)
    (attempts : List (RemoteAttemptResult (List AccountResult))) :
    Option (Except String (List AccountResult) × Nat) :=
  if accountsData.length = 0 then some (.ok [], 0) else retryOn401 attempts

/-- Model of `batchSearchAccounts`: an empty id list returns `[]` without
any remote attempt; otherwise the 401 refresh-retry recursion runs (the
chunked paging inside one attempt is not observed by the retry pattern). -/
def batchSearchAccounts (accountIds : List String)
    (attempts : List (RemoteAttemptResult (List RemoteAccount))) :
    Option (Except String (List RemoteAccount) × Nat) :=
  if accountIds.length = 0 then some (.ok [], 0) else retryOn401 attempts

/-! ## Concrete values used by witnesses and counterexamples -/

/-- Scenario-1 style row: active MP subscriber. -/
def demoRow : Row :=
  { user_id := some "U1", email := some "a@b.com", user_type := some "MP"
    active_sub := some "true", weekly_sub_count := some "2"
    monthly_sub_count := some "1", daily_sub_count := some "0" }

/-- The account payload `mapAccountFields` produces for `demoRow`. -/
def demoAccountPayload : AccountPayload :=
  { id := "U1", account_type := some "MP", active_subscription := "true"
    weekly_subscriptions := 2, monthly_subscriptions := 1, daily_subscriptions := 0
    ever_had_subscription := "true" }

/-- The contact payload `mapContactFields` produces for `demoRow`. -/
def demoContactPayload : ContactPayload :=
  { email := some "a@b.com", user_type := some "MP" }

/-- Scenario-5 style row: locally inactive record for business id `U2`. -/
def demoInactiveRow : Row :=
  { user_id := some "U2", email := some "b@c.de", user_type := some "WIX"
    active_sub := some "false", weekly_sub_count := some "7"
    monthly_sub_count := none, daily_sub_count := some "x" }

/-- A remotely-active account whose business id is `U2`. -/
def demoRemoteActive : RemoteAccount := { id := "H9", properties_id := some "U2" }

/-- The deactivation write the run emits for `demoInactiveRow` and
`demoRemoteActive`. -/
def demoDeactWrite : DeactivationWrite :=
  { hubspotId := "H9", accountId := "U2", updateData := deactCandidate demoInactiveRow "U2" }

/-- Row with an invalid email (scenario 3). -/
def demoBadRow : Row :=
  { user_id := some "U9", email := some "not-an-email", user_type := none
    active_sub := none, weekly_sub_count := none, monthly_sub_count := none
    daily_sub_count := none }

/-- Row whose weekly count is the hexadecimal numeral `0x10`. -/
def hexCountRow : Row :=
  { user_id := some "U3", email := some "c@d.ef", user_type := some "MP"
    active_sub := some "true", weekly_sub_count := some "0x10"
    monthly_sub_count := some "0", daily_sub_count := some "0" }

/-- The account payload `mapAccountFields` produces for `hexCountRow`. -/
def hexCountPayload : AccountPayload :=
  { id := "U3", account_type := some "MP", active_subscription := "true"
    weekly_subscriptions := 16, monthly_subscriptions := 0, daily_subscriptions := 0
    ever_had_subscription := "true" }

/-- Fresh run counters. -/
def initialStats : SyncStats :=
  { accountsCreated := 0, accountsUpdated := 0, contactsCreated := 0
    contactsUpdated := 0, associationsCreated := 0, errors := 0, batchesProcessed := 0 }

/-- A one-record UPDATE batch (no association pairs). -/
def demoUpdateBatch : Batch :=
  { accounts := [demoAccountPayload], contacts := [demoContactPayload]
    associations := [], batchNumber := 1, totalBatches := 1 }

/-- A remote environment in which every call succeeds with no results. -/
def demoEnvOk : BatchRemoteEnv :=
  { accountCreate := .ok [], contactCreate := .ok [], assocCreate := .ok [] }

/-! ## Claim C8 — the enumeration mapping -/

/-- C8: the enumeration mapping sends `MP` to `MP` and `WIX` to `USAMPS`,
leaves every other value (lower-case variants included) unchanged, and the
identical `mapAccountType` function feeds both the account's `account_type`
and the contact's `user_type`, which therefore always agree. -/
theorem claim_C8 :
    mapAccountType (some "MP") = some "MP" ∧
    mapAccountType (some "WIX") = some "USAMPS" ∧
    mapAccountType (some "mp") = some "mp" ∧
    mapAccountType (some "wix") = some "wix" ∧
    (∀ s : String, s ≠ "MP" → s ≠ "WIX" → mapAccountType (some s) = some s) ∧
    (∀ row : Row, (mapContactFields row).user_type = cleanStr (mapAccountType row.user_type)) ∧
    (∀ (row : Row) (a : AccountPayload), mapAccountFields row = some a →
      a.account_type = (mapContactFields row).user_type) := by
  refine ⟨rfl, rfl, by decide, by decide, ?_, fun row => rfl, ?_⟩
  · intro s h1 h2
    simp [mapAccountType, h1, h2]
  · intro row a h
    unfold mapAccountFields at h
    cases hc : cleanStr row.user_id with
    | none => rw [hc] at h; cases h
    | some i =>
      rw [hc] at h
      by_cases hi : i = ""
      · simp [hi] at h
      · simp [hi] at h
        rw [← h]
        rfl

/-- C8 witness: an unknown value passes through unchanged, and on the demo
row the account and contact enumeration fields agree. -/
theorem claim_C8_witness :
    mapAccountType (some "QQ") = some "QQ" ∧
    demoAccountPayload.account_type = (mapContactFields demoRow).user_type := by
  exact ⟨claim_C8.2.2.2.2.1 "QQ" (by decide) (by decide),
         claim_C8.2.2.2.2.2.2 demoRow demoAccountPayload (by decide)⟩

/-! ## Claim C9 — `ever_had_subscription` mirrors the current flag -/

/-- C9: for every row that yields an account payload, the derived
`ever_had_subscription` string equals the `active_subscription` string,
which is `"true"` exactly when `active_sub` converts to true — so a
currently-inactive record is marked as never having had a subscription. -/
theorem claim_C9 (row : Row) (a : AccountPayload) (h : mapAccountFields row = some a) :
    a.ever_had_subscription = a.active_subscription ∧
    a.active_subscription = (if convertToBoolean row.active_sub then "true" else "false") := by
  unfold mapAccountFields at h
  cases hc : cleanStr row.user_id with
  | none => rw [hc] at h; cases h
  | some i =>
    rw [hc] at h
    by_cases hi : i = ""
    · simp [hi] at h
    · simp [hi] at h
      rw [← h]
      constructor <;> rfl

/-- C9 witness: the demo row is active, so both strings are `"true"`; a
record with `active_sub=false` would get `"false"` in both fields. -/
theorem claim_C9_witness :
    demoAccountPayload.ever_had_subscription = demoAccountPayload.active_subscription ∧
    demoAccountPayload.active_subscription
      = (if convertToBoolean demoRow.active_sub then "true" else "false") :=
  claim_C9 demoRow demoAccountPayload (by decide)

/-! ## Claim C10 — the subscription-count parse -/

/-- Modelled from the claim's words, for comparison only: the base-10
integer parse of the source string (optional sign, then decimal digits),
with 0 substituted when the parse yields NaN or 0.  This is what the claim
asserts the code computes. -/
def decimalParseOr0 (value : Option String) : Int :=
  match value with
  | none => 0
  | some s =>
    let cs := s.data.dropWhile isJsSpace
    let signedBody : Int × List Char :=
      match cs with
      | '-' :: r => (-1, r)
      | '+' :: r => (1, r)
      | _ => (1, cs)
    match parseDigits decDigit 10 signedBody.2 with
    | none => 0
    | some n => signedBody.1 * n

/-- C10 counterexample: the claim as stated fails, because JavaScript
`parseInt` without a radix parses a `0x` prefix as hexadecimal — on
`weekly_sub_count = "0x10"` the payload carries 16 while the base-10 parse
(with 0 for NaN/0) gives 0. -/
theorem claim_C10_counterexample :
    ¬ (∀ (row : Row) (a : AccountPayload), mapAccountFields row = some a →
        a.weekly_subscriptions = decimalParseOr0 row.weekly_sub_count) := by
  intro h
  have h16 := h hexCountRow hexCountPayload (by decide)
  have : (16 : Int) = 0 := by
    have h0 : decimalParseOr0 hexCountRow.weekly_sub_count = 0 := by decide
    rw [← h0]
    exact h16
  cases this

/-- C10 amended: the three subscription-count fields of the account payload
and of the deactivation candidate equal the JavaScript `parseInt` of the
source string (base 10, except that a `0x`/`0X` prefix selects base 16),
with 0 substituted when the parse yields NaN or 0 — so a non-numeric
string, a missing field and the literal `"0"` produce 0, `"3.9"` produces
3, and `"0x10"` produces 16. -/
theorem claim_C10 :
    (∀ (row : Row) (a : AccountPayload), mapAccountFields row = some a →
      a.weekly_subscriptions = jsParseIntOr0 row.weekly_sub_count ∧
      a.monthly_subscriptions = jsParseIntOr0 row.monthly_sub_count ∧
      a.daily_subscriptions = jsParseIntOr0 row.daily_sub_count) ∧
    (∀ (row : Row) (uid : String),
      (deactCandidate row uid).weekly_subscriptions = jsParseIntOr0 row.weekly_sub_count ∧
      (deactCandidate row uid).monthly_subscriptions = jsParseIntOr0 row.monthly_sub_count ∧
      (deactCandidate row uid).daily_subscriptions = jsParseIntOr0 row.daily_sub_count) ∧
    jsParseIntOr0 (some "3.9") = 3 ∧
    jsParseIntOr0 none = 0 ∧
    jsParseIntOr0 (some "abc") = 0 ∧
    jsParseIntOr0 (some "0") = 0 ∧
    jsParseIntOr0 (some "0x10") = 16 := by
  refine ⟨?_, fun row uid => ⟨rfl, rfl, rfl⟩, by decide, rfl, by decide, by decide, by decide⟩
  intro row a h
  unfold mapAccountFields at h
  cases hc : cleanStr row.user_id with
  | none => rw [hc] at h; cases h
  | some i =>
    rw [hc] at h
    by_cases hi : i = ""
    · simp [hi] at h
    · simp [hi] at h
      rw [← h]
      exact ⟨rfl, rfl, rfl⟩

/-- C10 witness: the payload of the hexadecimal demo row carries exactly the
JavaScript-parsed value. -/
theorem claim_C10_witness :
    hexCountPayload.weekly_subscriptions = jsParseIntOr0 hexCountRow.weekly_sub_count :=
  (claim_C10.1 hexCountRow hexCountPayload (by decide)).1

/-! ## Claim C2 — the UPDATE write path -/

/-- The synthesized update results are in bijection with the local payloads. -/
theorem length_simulatedAccountResults (accounts : List AccountPayload) :
    (simulatedAccountResults accounts).length = accounts.length := by
  simp [simulatedAccountResults]

/-- The synthesized contact update results are in bijection with the local
payloads. -/
theorem length_simulatedContactResults (contacts : List ContactPayload) :
    (simulatedContactResults contacts).length = contacts.length := by
  simp [simulatedContactResults]

/-- C2: the claim that every UPDATE batch submits a bulk update call whose
response drives the updated counters is violated by the code — the
`operation === 'update'` branch of `processSingleBatch` submits no account
or contact update request at all (for a batch without association pairs the
remote call log is empty), yet it bumps the per-batch updated counters by
the local batch sizes, using locally fabricated `updated-account-<i>`
results. -/
theorem claim_C2 :
    (∀ (batch : Batch) (env : BatchRemoteEnv) (n : Nat) (s : SyncStats),
      ((processSingleBatch .update batch env n s).calls.all (fun c => !isUpdateCall c)) = true ∧
      (processSingleBatch .update batch env n s).stats.accountsUpdated
        = s.accountsUpdated + batch.accounts.length ∧
      (processSingleBatch .update batch env n s).stats.contactsUpdated
        = s.contactsUpdated + batch.contacts.length) ∧
    (processSingleBatch .update demoUpdateBatch demoEnvOk 1 initialStats).calls = [] ∧
    (processSingleBatch .update demoUpdateBatch demoEnvOk 1 initialStats).stats.accountsUpdated = 1 ∧
    (processSingleBatch .update demoUpdateBatch demoEnvOk 1 initialStats).stats.contactsUpdated = 1 ∧
    (processSingleBatch .update demoUpdateBatch demoEnvOk 1 initialStats).result.success = true := by
  refine ⟨?_, by decide, by decide, by decide, by decide⟩
  intro batch env n s
  simp only [processSingleBatch, finishBatch, length_simulatedAccountResults,
    length_simulatedContactResults]
  split
  · cases henv : env.assocCreate <;> simp [henv, isUpdateCall]
  · simp [isUpdateCall]

/-! ## Claim C3 — the 401 refresh-retry recursion -/

/-- Persistent 401 responses keep the refresh-retry recursion running: no
number of all-401 attempts makes the call return. -/
theorem retryOn401_replicate_errAuth {α : Type} :
    ∀ n : Nat, retryOn401 (α := α) (List.replicate n .errAuth) = none
  | 0 => rfl
  | n + 1 => by
    simp [List.replicate, retryOn401, retryOn401_replicate_errAuth (α := α) n]

/-- C3: the claim that a failed credential triggers exactly one
refresh-and-retry, with a second auth failure becoming a hard failure, is
violated by the code — the `catch` of `batchCreateAccounts` (and of
`batchSearchAccounts`) refreshes and re-invokes the call on every 401 with
no attempt bound: two consecutive 401s provoke a second refresh and a third
attempt, all-401 responses keep the recursion running forever, and only a
non-auth second failure propagates as a hard failure. -/
theorem claim_C3 :
    batchCreateAccounts [demoAccountPayload] [.errAuth, .errAuth, .ok []] = some (.ok [], 2) ∧
    (∀ n : Nat,
      retryOn401 (α := List AccountResult) (List.replicate n .errAuth) = none) ∧
    batchCreateAccounts [demoAccountPayload] [.errAuth, .errOther "server error"]
      = some (.error "server error", 1) ∧
    batchSearchAccounts ["U1"] [.errAuth, .errAuth, .errAuth] = none := by
  exact ⟨by decide, fun n => retryOn401_replicate_errAuth n, by decide, by decide⟩

/-! ## Claim C4 — invalid rows are dropped everywhere -/

/-- The active bucket is the valid rows whose activity flag converts true. -/
theorem filterRecords_active_eq (rows : List Row) :
    (filterRecordsForProcessing rows).activeRecords
      = rows.filter (fun r => validateRow r && convertToBoolean r.active_sub) := by
  induction rows with
  | nil => rfl
  | cons row rest ih =>
    cases hv : validateRow row <;> cases hc : convertToBoolean row.active_sub <;>
      simp [filterRecordsForProcessing, List.filter_cons, hv, hc, ih]

/-- The inactive bucket is the valid rows whose activity flag converts false. -/
theorem filterRecords_inactive_eq (rows : List Row) :
    (filterRecordsForProcessing rows).inactiveRecords
      = rows.filter (fun r => validateRow r && !convertToBoolean r.active_sub) := by
  induction rows with
  | nil => rfl
  | cons row rest ih =>
    cases hv : validateRow row <;> cases hc : convertToBoolean row.active_sub <;>
      simp [filterRecordsForProcessing, List.filter_cons, hv, hc, ih]

/-- The creation bucket is exactly the valid rows. -/
theorem filterRecords_all_eq (rows : List Row) :
    (filterRecordsForProcessing rows).allRecordsForCreation = rows.filter validateRow := by
  induction rows with
  | nil => rfl
  | cons row rest ih =>
    cases hv : validateRow row <;> cases hc : convertToBoolean row.active_sub <;>
      simp [filterRecordsForProcessing, List.filter_cons, hv, hc, ih]

/-- Rows kept by a predicate and rows kept by its negation partition a list. -/
theorem length_filter_add_not {α : Type} (p : α → Bool) (l : List α) :
    (l.filter p).length + (l.filter (fun a => !p a)).length = l.length := by
  induction l with
  | nil => rfl
  | cons a l ih =>
    cases hp : p a <;> simp [List.filter_cons, hp, ← ih] <;> omega

/-- A row with a blank `user_id`, a blank `email`, or an email rejected by
the regular expression fails `validateRow`. -/
theorem invalid_validateRow (row : Row)
    (h : blankField row.user_id = true ∨ blankField row.email = true ∨
         ∃ e, row.email = some e ∧ isValidEmail e = false) :
    validateRow row = false := by
  unfold validateRow
  rcases h with h | h | ⟨e, he, hbad⟩
  · simp [h]
  · simp [h]
  · rw [he]
    by_cases hbe : blankField (some e) = true
    · simp [hbe]
    · have hbe' : blankField (some e) = false := Bool.eq_false_iff.mpr hbe
      have hne : e ≠ "" := by
        intro h0
        rw [h0] at hbe'
        simp [blankField, jsTrim] at hbe'
      by_cases hco : (blankField (some e) || blankField row.user_id) = true <;>
        simp [hco, hne, hbad]

/-- C4: a row whose `user_id` is missing or blank, whose `email` is missing
or blank, or whose email fails the `local@domain.tld` regular expression is
excluded from all three buckets of `filterRecordsForProcessing`, and the
bucket of valid rows together with the dropped rows accounts for every
input row (the dropped rows are the skip count; filtering is a total
function, so a failing row never aborts the run). -/
theorem claim_C4 (rows : List Row) (row : Row)
    (h : blankField row.user_id = true ∨ blankField row.email = true ∨
         ∃ e, row.email = some e ∧ isValidEmail e = false) :
    row ∉ (filterRecordsForProcessing rows).activeRecords ∧
    row ∉ (filterRecordsForProcessing rows).inactiveRecords ∧
    row ∉ (filterRecordsForProcessing rows).allRecordsForCreation ∧
    (filterRecordsForProcessing rows).allRecordsForCreation.length
        + (rows.filter (fun r => !validateRow r)).length = rows.length := by
  have hv := invalid_validateRow row h
  refine ⟨?_, ?_, ?_, ?_⟩
  · rw [filterRecords_active_eq]
    intro hmem
    have := (List.mem_filter.mp hmem).2
    rw [hv] at this
    cases this
  · rw [filterRecords_inactive_eq]
    intro hmem
    have := (List.mem_filter.mp hmem).2
    rw [hv] at this
    cases this
  · rw [filterRecords_all_eq]
    intro hmem
    have := (List.mem_filter.mp hmem).2
    rw [hv] at this
    cases this
  · rw [filterRecords_all_eq]
    exact length_filter_add_not validateRow rows

/-- C4 witness: the malformed-email row is dropped from the creation bucket
of its own singleton run and counted among the dropped rows. -/
theorem claim_C4_witness :
    demoBadRow ∉ (filterRecordsForProcessing [demoBadRow]).allRecordsForCreation ∧
    (filterRecordsForProcessing [demoBadRow]).allRecordsForCreation.length
        + ([demoBadRow].filter (fun r => !validateRow r)).length = [demoBadRow].length := by
  have h := claim_C4 [demoBadRow] demoBadRow
    (Or.inr (Or.inr ⟨"not-an-email", rfl, by decide⟩))
  exact ⟨h.2.2.1, h.2.2.2⟩

/-! ## Claim C1 — CREATE/UPDATE categorization -/

/-- A valid row always yields an account payload (its `user_id` is
non-blank, so the cleaned `id` is truthy). -/
theorem validRow_mapAccountFields (row : Row) (h : validateRow row = true) :
    (mapAccountFields row).isSome = true := by
  unfold validateRow at h
  split at h
  · cases h
  · rename_i hcond
    simp only [Bool.or_eq_true, not_or] at hcond
    have hfalse : blankField row.user_id = false := Bool.eq_false_iff.mpr hcond.2
    cases hu : row.user_id with
    | none => rw [hu] at hfalse; cases hfalse
    | some s =>
      rw [hu] at hfalse
      have hs : s ≠ "" := by
        intro h0
        rw [h0] at hfalse
        simp [blankField, jsTrim] at hfalse
      have ht : jsTrim s ≠ "" := by
        intro h0
        simp [blankField, h0] at hfalse
      simp [mapAccountFields, cleanStr, hu, hs, ht]

/-- The CREATE condition of `categorizeRecordsByExistence` for one row: the
row's account business id is absent from the existing-account set, or its
contact email is absent from the existing-contact set (a row without an
account payload is skipped by the loop and belongs to neither bucket). -/
def createCond (existingAccountIds existingContactEmails : List String) (row : Row) : Bool :=
  match mapAccountFields row with
  | none => false
  | some a =>
    !(existingAccountIds.contains a.id) ||
    !(setHasOpt existingContactEmails (mapContactFields row).email)

/-- On valid rows, the categorization loop is exactly a partition by the
CREATE condition. -/
theorem categorizeGo_eq_filters (accSet contSet : List String) (rows : List Row)
    (h : ∀ r ∈ rows, validateRow r = true) :
    categorizeGo accSet contSet rows
      = (rows.filter (createCond accSet contSet),
         rows.filter (fun r => !createCond accSet contSet r)) := by
  induction rows with
  | nil => rfl
  | cons row rest ih =>
    have hrow := h row (by simp)
    have hrest : ∀ r ∈ rest, validateRow r = true := fun r hr => h r (by simp [hr])
    obtain ⟨a, ha⟩ := Option.isSome_iff_exists.mp (validRow_mapAccountFields row hrow)
    by_cases hacc : a.id ∈ accSet <;>
      cases hso : setHasOpt contSet (mapContactFields row).email <;>
      simp [categorizeGo, List.filter_cons, ih hrest, createCond, ha, hacc, hso, ite_self]

/-- C1: on a list of validated records, `categorizeRecordsByExistence` puts
a record in the CREATE bucket exactly when its account business id is
absent from the existing-account set or its email is absent from the
existing-contact set, and in the UPDATE bucket otherwise (the activity flag
plays no role); the buckets partition the input, so their sizes sum to the
input length, which is also the reported operation total. -/
theorem claim_C1 (rows : List Row) (accSet contSet : List String)
    (h : ∀ r ∈ rows, validateRow r = true) :
    (categorizeRecordsByExistence rows accSet contSet).toCreate
        = rows.filter (createCond accSet contSet) ∧
    (categorizeRecordsByExistence rows accSet contSet).toUpdate
        = rows.filter (fun r => !createCond accSet contSet r) ∧
    (categorizeRecordsByExistence rows accSet contSet).toCreate.length
        + (categorizeRecordsByExistence rows accSet contSet).toUpdate.length
        = rows.length ∧
    (categorizeRecordsByExistence rows accSet contSet).totalOperations = rows.length := by
  have hgo := categorizeGo_eq_filters accSet contSet rows h
  have h1 : (categorizeRecordsByExistence rows accSet contSet).toCreate
      = rows.filter (createCond accSet contSet) := by
    unfold categorizeRecordsByExistence
    rw [hgo]
  have h2 : (categorizeRecordsByExistence rows accSet contSet).toUpdate
      = rows.filter (fun r => !createCond accSet contSet r) := by
    unfold categorizeRecordsByExistence
    rw [hgo]
  have h3 : (categorizeRecordsByExistence rows accSet contSet).toCreate.length
      + (categorizeRecordsByExistence rows accSet contSet).toUpdate.length = rows.length := by
    rw [h1, h2]
    exact length_filter_add_not (createCond accSet contSet) rows
  refine ⟨h1, h2, h3, ?_⟩
  have h4 : (categorizeRecordsByExistence rows accSet contSet).totalOperations
      = (categorizeRecordsByExistence rows accSet contSet).toCreate.length
        + (categorizeRecordsByExistence rows accSet contSet).toUpdate.length := by
    unfold categorizeRecordsByExistence
    rw [hgo]
  rw [h4, h3]

/-- C1 witness: with empty existence sets the demo row is created; with
both its id and email known remotely it is updated; in each case the bucket
sizes sum to the single input record. -/
theorem claim_C1_witness :
    (categorizeRecordsByExistence [demoRow] [] []).toCreate
        = [demoRow].filter (createCond [] []) ∧
    (categorizeRecordsByExistence [demoRow] ["U1"] ["a@b.com"]).toCreate.length
        + (categorizeRecordsByExistence [demoRow] ["U1"] ["a@b.com"]).toUpdate.length
        = [demoRow].length := by
  have ha := claim_C1 [demoRow] [] [] (by decide)
  have hb := claim_C1 [demoRow] ["U1"] ["a@b.com"] (by decide)
  exact ⟨ha.1, hb.2.2.1⟩

/-! ## Claim C5 — deactivation writes -/

/-- Lookup after a `Map.set`: the new key yields the new value, every other
key is untouched. -/
theorem mapGet_mapSet (m : DeactMap) (u k : String) (v : DeactivationCandidate) :
    mapGet (mapSet m u v) k = if u == k then some v else mapGet m k := by
  induction m with
  | nil => simp [mapSet, mapGet]
  | cons p rest ih =>
    obtain ⟨k', v'⟩ := p
    by_cases h1 : k' = u <;> by_cases h2 : u = k <;> by_cases h3 : k' = k <;>
      simp_all [mapSet, mapGet]

/-- Lookup after one `createDeactivationMap` step. -/
theorem mapGet_deactStep (m : DeactMap) (row : Row) (k : String) :
    mapGet (deactStep m row) k
      = match rowKeyOf row with
        | some u => if u == k then some (deactCandidate row u) else mapGet m k
        | none => mapGet m k := by
  unfold deactStep rowKeyOf
  cases hu : row.user_id with
  | none => rfl
  | some uid =>
    by_cases h0 : uid == ""
    · simp [h0]
    · simp only [h0, Bool.false_eq_true, if_false, mapGet_mapSet]

/-- Key presence after one `createDeactivationMap` step. -/
theorem mapHas_deactStep (m : DeactMap) (row : Row) (k : String) :
    mapHas (deactStep m row) k = ((rowKeyOf row == some k) || mapHas m k) := by
  unfold mapHas
  rw [mapGet_deactStep]
  cases hko : rowKeyOf row with
  | none => simp
  | some u => by_cases hu : u = k <;> simp [hu]

/-- Key presence in the folded deactivation map. -/
theorem mapHas_foldl_deactStep (k : String) :
    ∀ (l : List Row) (m : DeactMap),
      mapHas (l.foldl deactStep m) k
        = (l.any (fun r => rowKeyOf r == some k) || mapHas m k) := by
  intro l
  induction l with
  | nil => intro m; simp
  | cons row rest ih =>
    intro m
    rw [List.foldl_cons, ih (deactStep m row), mapHas_deactStep, List.any_cons]
    cases rowKeyOf row == some k <;> simp

/-- Every value in the folded deactivation map comes from a listed row (or
was already in the accumulator). -/
theorem mapGet_foldl_deactStep (k : String) (v : DeactivationCandidate) :
    ∀ (l : List Row) (m : DeactMap),
      mapGet (l.foldl deactStep m) k = some v →
      (∃ r ∈ l, rowKeyOf r = some k ∧ v = deactCandidate r k) ∨ mapGet m k = some v := by
  intro l
  induction l with
  | nil => intro m h; exact Or.inr h
  | cons row rest ih =>
    intro m h
    rw [List.foldl_cons] at h
    rcases ih (deactStep m row) h with h1 | h1
    · obtain ⟨r, hr, hk, hv⟩ := h1
      exact Or.inl ⟨r, by simp [hr], hk, hv⟩
    · rw [mapGet_deactStep] at h1
      cases hko : rowKeyOf row with
      | none => rw [hko] at h1; exact Or.inr h1
      | some u =>
        simp only [hko] at h1
        by_cases hu : u == k
        · rw [if_pos hu] at h1
          have huk : u = k := by simpa using hu
          have hv : v = deactCandidate row u := by
            injection h1 with h2
            exact h2.symm
          exact Or.inl ⟨row, by simp, by rw [hko, huk], by rw [hv, huk]⟩
        · rw [if_neg hu] at h1
          exact Or.inr h1

/-- A key is in `createDeactivationMap` exactly when some listed row has it
as its (truthy) `user_id`. -/
theorem mapHas_createDeactivationMap (l : List Row) (k : String) :
    mapHas (createDeactivationMap l) k = true ↔ ∃ r ∈ l, rowKeyOf r = some k := by
  unfold createDeactivationMap
  rw [mapHas_foldl_deactStep]
  constructor
  · intro h
    have : l.any (fun r => rowKeyOf r == some k) = true := by
      cases hany : l.any (fun r => rowKeyOf r == some k)
      · rw [hany] at h; simp [mapHas, mapGet] at h
      · rfl
    obtain ⟨r, hr, hk⟩ := List.any_eq_true.mp this
    exact ⟨r, hr, by simpa using hk⟩
  · intro ⟨r, hr, hk⟩
    have : l.any (fun r => rowKeyOf r == some k) = true :=
      List.any_eq_true.mpr ⟨r, hr, by simpa using hk⟩
    rw [this]
    rfl

/-- Every value in `createDeactivationMap` is the candidate of a listed row. -/
theorem mapGet_createDeactivationMap (l : List Row) (k : String) (v : DeactivationCandidate)
    (h : mapGet (createDeactivationMap l) k = some v) :
    ∃ r ∈ l, rowKeyOf r = some k ∧ v = deactCandidate r k := by
  rcases mapGet_foldl_deactStep k v l [] h with h1 | h1
  · exact h1
  · cases h1

/-- C5: a deactivation write is emitted exactly for the business ids that
are both a key of the local-inactive map and the `id` property of some
remotely-active account; each write carries the map entry of its id, which
comes from an inactive row with that `user_id` and has the active flag
`false` and the row's parsed subscription counts (`deactCandidate`); and
the map's keys are exactly the truthy `user_id`s of the inactive rows. -/
theorem claim_C5 (inactive : List Row) (active : List RemoteAccount) :
    (∀ w ∈ identifyDeactivations active (createDeactivationMap inactive),
      w.updateData.active_subscription = false ∧
      mapGet (createDeactivationMap inactive) w.accountId = some w.updateData ∧
      (∃ r ∈ inactive, rowKeyOf r = some w.accountId ∧
        w.updateData = deactCandidate r w.accountId) ∧
      (∃ acc ∈ active, acc.id = w.hubspotId ∧ acc.properties_id = some w.accountId)) ∧
    (∀ acc ∈ active, ∀ k : String, acc.properties_id = some k →
      mapHas (createDeactivationMap inactive) k = true →
      ∃ w ∈ identifyDeactivations active (createDeactivationMap inactive),
        w.hubspotId = acc.id ∧ w.accountId = k) ∧
    (∀ k : String, mapHas (createDeactivationMap inactive) k = true ↔
      ∃ r ∈ inactive, rowKeyOf r = some k) := by
  refine ⟨?_, ?_, fun k => mapHas_createDeactivationMap inactive k⟩
  · intro w hw
    rcases List.mem_filterMap.mp hw with ⟨acc, hacc, hg⟩
    rcases hpid : acc.properties_id with _ | k
    · rw [hpid] at hg; cases hg
    · simp only [hpid] at hg
      rcases hget : mapGet (createDeactivationMap inactive) k with _ | u
      · simp only [hget] at hg
        cases hg
      · simp only [hget] at hg
        injection hg with hg
        subst hg
        obtain ⟨r, hr, hrk, hru⟩ := mapGet_createDeactivationMap inactive k u hget
        exact ⟨by rw [hru]; rfl, hget, ⟨r, hr, hrk, hru⟩, ⟨acc, hacc, rfl, hpid⟩⟩
  · intro acc hacc k hpid hhas
    rcases hget : mapGet (createDeactivationMap inactive) k with _ | u
    · unfold mapHas at hhas
      rw [hget] at hhas
      cases hhas
    · refine ⟨⟨acc.id, k, u⟩, ?_, rfl, rfl⟩
      exact List.mem_filterMap.mpr ⟨acc, hacc, by simp [hpid, hget]⟩

/-- C5 witness: for the scenario-5 pair (locally inactive `U2`, remotely
active `U2`) the emitted write sets the active flag false and carries the
map entry for `U2`. -/
theorem claim_C5_witness :
    demoDeactWrite.updateData.active_subscription = false ∧
    mapGet (createDeactivationMap [demoInactiveRow]) demoDeactWrite.accountId
      = some demoDeactWrite.updateData := by
  have h := (claim_C5 [demoInactiveRow] [demoRemoteActive]).1 demoDeactWrite (by decide)
  exact ⟨h.1, h.2.1⟩

/-! ## Claim C6 — batch size and association provenance -/

/-- Every chunk the slicing loop produces is a `take 100`, hence at most
100 rows long. -/
theorem chunkGo_chunk_length (fuel : Nat) :
    ∀ (l : List Row) (c : List Row), c ∈ chunkGo fuel l → c.length ≤ 100 := by
  induction fuel with
  | zero =>
    intro l c hc
    cases l with
    | nil => cases hc
    | cons a r => cases hc
  | succ f ih =>
    intro l c hc
    cases l with
    | nil => cases hc
    | cons a r =>
      rcases List.mem_cons.mp hc with hc | hc
      · subst hc
        rw [List.length_take]
        exact Nat.min_le_left _ _
      · exact ih _ c hc

/-- An element paired in an enumeration is an element of the list. -/
theorem snd_mem_of_mem_enumFrom {α : Type} :
    ∀ (l : List α) (start i : Nat) (x : α), (i, x) ∈ l.enumFrom start → x ∈ l := by
  intro l
  induction l with
  | nil => intro start i x h; cases h
  | cons a r ih =>
    intro start i x h
    rw [List.enumFrom_cons] at h
    rcases List.mem_cons.mp h with h | h
    · injection h with h1 h2
      exact List.mem_cons.mpr (Or.inl h2)
    · exact List.mem_cons.mpr (Or.inr (ih (start + 1) i x h))

/-- C6: every planned batch has at most 100 account payloads and at most
100 contact payloads, and every association pair of a batch stems from a
row of that same chunk whose account payload and contact payload are both
in the batch, with the pair's fields equal to that row's account id and
contact email. -/
theorem claim_C6 (records : List Row) (b : Batch)
    (hb : b ∈ groupForBatchProcessing records) :
    b.accounts.length ≤ 100 ∧ b.contacts.length ≤ 100 ∧
    ∀ p ∈ b.associations, ∃ (row : Row) (a : AccountPayload),
      mapAccountFields row = some a ∧ a ∈ b.accounts ∧
      mapContactFields row ∈ b.contacts ∧
      p.accountId = a.id ∧ p.contactEmail = (mapContactFields row).email := by
  unfold groupForBatchProcessing at hb
  rcases List.mem_map.mp hb with ⟨⟨i, c⟩, hic, hbe⟩
  have hc : c ∈ chunkBy100 records := snd_mem_of_mem_enumFrom _ 0 i c hic
  have hlen : c.length ≤ 100 := chunkGo_chunk_length records.length records c hc
  subst hbe
  refine ⟨?_, ?_, ?_⟩
  · exact le_trans (List.length_filterMap_le _ _) hlen
  · simpa [buildBatch] using hlen
  · intro p hp
    rcases List.mem_filterMap.mp hp with ⟨row, hrow, hfn⟩
    rcases hma : mapAccountFields row with _ | a
    · rw [hma] at hfn; cases hfn
    · simp only [hma] at hfn
      injection hfn with hfn
      refine ⟨row, a, hma, ?_, ?_, ?_, ?_⟩
      · exact List.mem_filterMap.mpr ⟨row, hrow, hma⟩
      · exact List.mem_map.mpr ⟨row, hrow, rfl⟩
      · rw [← hfn]
      · rw [← hfn]

/-- C6 witness: the single batch planned for the demo row respects the size
bound and its one association pair carries the demo row's account id and
email. -/
theorem claim_C6_witness :
    (buildBatch [demoRow] 1 1).accounts.length ≤ 100 ∧
    ∃ (row : Row) (a : AccountPayload),
      mapAccountFields row = some a ∧ a ∈ (buildBatch [demoRow] 1 1).accounts ∧
      mapContactFields row ∈ (buildBatch [demoRow] 1 1).contacts ∧
      (AssociationPair.mk "U1" (some "a@b.com")).accountId = a.id ∧
      (AssociationPair.mk "U1" (some "a@b.com")).contactEmail = (mapContactFields row).email := by
  have h := claim_C6 [demoRow] (buildBatch [demoRow] 1 1) (by decide)
  exact ⟨h.1, h.2.2 (AssociationPair.mk "U1" (some "a@b.com")) (by decide)⟩

/-! ## Claim C7 — batch-level error isolation -/

/-- The association stage of one batch: success flag, error counter and
processed counter as functions of whether the stage is reached and rejects. -/
theorem finishBatch_spec (op : BatchOp) (b : Batch) (env : BatchRemoteEnv) (n : Nat)
    (s : SyncStats) (calls : List RemoteCall) (arLen crLen : Nat) :
    ((finishBatch op b env n s calls arLen crLen).result.success
        = !(b.associations.length > 0 && arLen > 0 && crLen > 0 && isErrResp env.assocCreate)) ∧
    ((finishBatch op b env n s calls arLen crLen).stats.errors
        = s.errors + (if b.associations.length > 0 && arLen > 0 && crLen > 0 &&
            isErrResp env.assocCreate then 1 else 0)) ∧
    ((finishBatch op b env n s calls arLen crLen).stats.batchesProcessed
        = s.batchesProcessed + (if b.associations.length > 0 && arLen > 0 && crLen > 0 &&
            isErrResp env.assocCreate then 0 else 1)) := by
  unfold finishBatch
  split
  · rename_i hcond
    rcases hasc : env.assocCreate with msg | rs <;> simp [hcond, hasc, isErrResp]
  · rename_i hcond
    have hcond' : (b.associations.length > 0 && arLen > 0 && crLen > 0) = false :=
      Bool.eq_false_iff.mpr hcond
    simp [hcond']

/-- The resolved value of one batch does not depend on the incoming stats
(only the counters thread through). -/
theorem processSingleBatch_result_indep (op : BatchOp) (b : Batch) (env : BatchRemoteEnv)
    (n : Nat) (s s' : SyncStats) :
    (processSingleBatch op b env n s).result = (processSingleBatch op b env n s').result := by
  have hfin : ∀ (t t' : SyncStats) (cs cs' : List RemoteCall) (arLen crLen : Nat),
      (finishBatch op b env n t cs arLen crLen).result
        = (finishBatch op b env n t' cs' arLen crLen).result := by
    intro t t' cs cs' arLen crLen
    unfold finishBatch
    split
    · rcases env.assocCreate with msg | rs <;> rfl
    · rfl
  cases op with
  | create =>
    rcases hac : env.accountCreate with msga | ar <;>
      rcases hcc : env.contactCreate with msgc | cr <;>
      by_cases h1 : b.accounts.length > 0 <;> by_cases h2 : b.contacts.length > 0 <;>
      simp [processSingleBatch, hac, hcc, h1, h2] <;>
      exact hfin _ _ _ _ _ _
  | update =>
    simp only [processSingleBatch]
    exact hfin _ _ _ _ _ _

/-- One batch resolves successfully exactly when none of its remote calls
rejects, and it moves the error counter and the processed counter by the
corresponding single step. -/
theorem processSingleBatch_spec (op : BatchOp) (b : Batch) (env : BatchRemoteEnv)
    (n : Nat) (s : SyncStats) :
    (processSingleBatch op b env n s).result.success = !batchThrows op b env ∧
    (processSingleBatch op b env n s).stats.errors
      = s.errors + (if batchThrows op b env then 1 else 0) ∧
    (processSingleBatch op b env n s).stats.batchesProcessed
      = s.batchesProcessed + (if batchThrows op b env then 0 else 1) := by
  cases op with
  | create =>
    rcases hac : env.accountCreate with msga | ar <;>
      rcases hcc : env.contactCreate with msgc | cr <;>
      by_cases h1 : b.accounts.length > 0 <;> by_cases h2 : b.contacts.length > 0 <;>
      simp [processSingleBatch, batchThrows, isErrResp, respLen, hac, hcc, h1, h2,
        finishBatch_spec]
  | update =>
    simp [processSingleBatch, batchThrows, isErrResp,
      length_simulatedAccountResults, length_simulatedContactResults, finishBatch_spec]

/-- The batch loop: results are collected per task (with the canonical
fresh-stats resolved value, which equals each task's own resolved value),
and the error and processed counters accumulate one step per task. -/
theorem processBatches_spec (tasks : List BatchTask) :
    ∀ s0 : SyncStats,
      (processBatchesWithConcurrency tasks s0).2
        = tasks.map (fun t =>
            (processSingleBatch t.op t.batch t.env t.batchNum initialStats).result) ∧
      (processBatchesWithConcurrency tasks s0).1.errors
        = s0.errors + tasks.countP (fun t => batchThrows t.op t.batch t.env) ∧
      (processBatchesWithConcurrency tasks s0).1.batchesProcessed
        = s0.batchesProcessed + tasks.countP (fun t => !batchThrows t.op t.batch t.env) := by
  induction tasks with
  | nil =>
    intro s0
    refine ⟨rfl, by simp [processBatchesWithConcurrency], by simp [processBatchesWithConcurrency]⟩
  | cons t rest ih =>
    intro s0
    obtain ⟨ihm, ihe, ihb⟩ := ih (processSingleBatch t.op t.batch t.env t.batchNum s0).stats
    obtain ⟨hsucc, herr, hbp⟩ := processSingleBatch_spec t.op t.batch t.env t.batchNum s0
    refine ⟨?_, ?_, ?_⟩
    · simp only [processBatchesWithConcurrency, List.map_cons]
      rw [ihm, processSingleBatch_result_indep t.op t.batch t.env t.batchNum s0 initialStats]
    · simp only [processBatchesWithConcurrency, List.countP_cons]
      rw [ihe, herr]
      cases batchThrows t.op t.batch t.env <;> simp <;> omega
    · simp only [processBatchesWithConcurrency, List.countP_cons]
      rw [ihb, hbp]
      cases batchThrows t.op t.batch t.env <;> simp <;> omega

/-- C7: across the whole work list, every batch contributes exactly one
resolved value (a failure value rather than a propagated exception when the
batch throws), sibling batches are unaffected — the final error counter is
the incoming one plus the number of throwing batches and the processed
counter counts exactly the non-throwing batches — and the loop is a total
function returning the final stats; moreover a single batch resolves with
`success = false` exactly when one of its remote calls rejects. -/
theorem claim_C7 (tasks : List BatchTask) (stats0 : SyncStats) :
    ((processBatchesWithConcurrency tasks stats0).2).length = tasks.length ∧
    (processBatchesWithConcurrency tasks stats0).2
      = tasks.map (fun t =>
          (processSingleBatch t.op t.batch t.env t.batchNum initialStats).result) ∧
    (processBatchesWithConcurrency tasks stats0).1.errors
      = stats0.errors + tasks.countP (fun t => batchThrows t.op t.batch t.env) ∧
    (processBatchesWithConcurrency tasks stats0).1.batchesProcessed
      = stats0.batchesProcessed + tasks.countP (fun t => !batchThrows t.op t.batch t.env) ∧
    (∀ (op : BatchOp) (b : Batch) (env : BatchRemoteEnv) (n : Nat) (s : SyncStats),
      (processSingleBatch op b env n s).result.success = !batchThrows op b env) := by
  obtain ⟨hm, he, hb⟩ := processBatches_spec tasks stats0
  exact ⟨by rw [hm, List.length_map], hm, he, hb,
    fun op b env n s => (processSingleBatch_spec op b env n s).1⟩

end HubspotCsv
